import Mathlib

/-!
# go-clang: source ranges, token streams and the find-visitor bridge

A shallow embedding of `sourcerange.go`, `token.go` and `find.go`.

* The C value types of `clang-c/Index.h` are records of natural numbers
  (pointers are their addresses, `unsigned` fields their values).
* Every libclang entry point the Go code calls is a field of `Engine`; the Go
  functions are translated over an arbitrary engine.  What a theorem needs from
  the engine is stated as an explicit hypothesis of that theorem.
* A Go run-time panic is the `error` side of `Except Panic`.
* Calls into the engine whose number matters are recorded in a list of
  `EngineCall`.
* Go `uint` offsets are only ever compared, never added, so they are `Nat`.
-/

namespace Clang

/-! ## C value types (clang-c/Index.h) -/

/-- The handle `CXFile` (a `void *`), as its address; `0` is the NULL file. -/
abbrev CXFile := Nat

/-- The handle `CXTranslationUnit` (a pointer), as its address. -/
abbrev CXTranslationUnit := Nat

/-- The struct `CXSourceLocation`: `ptr_data[2]` and `int_data`. -/
structure CXSourceLocation where
  ptr_data0 : Nat
  ptr_data1 : Nat
  int_data : Nat
  deriving DecidableEq, Repr

/-- The struct `CXSourceRange`: `ptr_data[2]`, `begin_int_data`, `end_int_data`. -/
structure CXSourceRange where
  ptr_data0 : Nat
  ptr_data1 : Nat
  begin_int_data : Nat
  end_int_data : Nat
  deriving DecidableEq, Repr

/-- The struct `CXToken`: `int_data[4]` and `ptr_data`. -/
structure CXToken where
  int_data0 : Nat
  int_data1 : Nat
  int_data2 : Nat
  int_data3 : Nat
  ptr_data : Nat
  deriving DecidableEq, Repr

/-- The struct `CXCursor`: `kind`, `xdata` and `data[3]`. -/
structure CXCursor where
  kind : Nat
  xdata : Int
  data0 : Nat
  data1 : Nat
  data2 : Nat
  deriving DecidableEq, Repr

/-- The Go zero value of a `C.CXCursor`, as `make` fills a fresh slice. -/
def CXCursor.zero : CXCursor := ⟨0, 0, 0, 0, 0⟩

/-- What `clang_tokenize` leaves in its two out-parameters: the pointer `c`
(`none` for NULL, otherwise the memory it points to, read by index) and the
count `n`. -/
structure TokenizeOut where
  c : Option (Nat → CXToken)
  n : Nat

/-! ## The engine -/

/-- The libclang entry points used by the three Go files, with the two
constants of `enum CXVisitorResult`. -/
structure Engine where
  getNullRange : CXSourceRange
  getRange : CXSourceLocation → CXSourceLocation → CXSourceRange
  equalRanges : CXSourceRange → CXSourceRange → Nat
  Range_isNull : CXSourceRange → Int
  getRangeStart : CXSourceRange → CXSourceLocation
  getRangeEnd : CXSourceRange → CXSourceLocation
  getFileLocation : CXSourceLocation → CXFile × Nat × Nat × Nat
  getFileName : CXFile → String
  tokenize : CXTranslationUnit → CXSourceRange → TokenizeOut
  getTokenExtent : CXTranslationUnit → CXToken → CXSourceRange
  annotateTokens : CXTranslationUnit → List CXToken → Nat → Nat → CXCursor
  getCursorExtent : CXCursor → CXSourceRange
  Cursor_getTranslationUnit : CXCursor → CXTranslationUnit
  CXVisit_Break : Int
  CXVisit_Continue : Int

/-- A Go run-time panic. -/
inductive Panic where
  | indexOutOfRange
  | sliceBoundsOutOfRange
  | nilDereference
  | outOfFuel
  deriving DecidableEq, Repr

deriving instance DecidableEq for Except

/-- A recorded call into the engine: the routine and the arguments it got
(the token array a pointer designates is given by its contents). -/
inductive EngineCall where
  | annotateTokens (tu : CXTranslationUnit) (tokens : List CXToken) (n : Nat)
  | disposeTokens (tu : CXTranslationUnit) (tokens : List CXToken) (n : Nat)
  deriving DecidableEq, Repr

/-! ## Go wrapper types -/

/-- Go `type File struct { c C.CXFile }`. -/
structure File where
  c : CXFile
  deriving DecidableEq, Repr

/-- Go `type SourceLocation struct { c C.CXSourceLocation }`. -/
structure SourceLocation where
  c : CXSourceLocation
  deriving DecidableEq, Repr

/-- Go `type SourceRange struct { c C.CXSourceRange }`. -/
structure SourceRange where
  c : CXSourceRange
  deriving DecidableEq, Repr

/-- Go `type Cursor struct { c C.CXCursor }`. -/
structure Cursor where
  c : CXCursor
  deriving DecidableEq, Repr

/-- Go `type TranslationUnit struct { c C.CXTranslationUnit }`. -/
structure TranslationUnit where
  c : CXTranslationUnit
  deriving DecidableEq, Repr

/-- Go `type Token struct { c C.CXToken; tu C.CXTranslationUnit }`. -/
structure Token where
  c : CXToken
  tu : CXTranslationUnit
  deriving DecidableEq, Repr

/-- Go `type Tokens struct { tu C.CXTranslationUnit; c []C.CXToken }`. -/
structure Tokens where
  tu : CXTranslationUnit
  c : List CXToken
  deriving DecidableEq, Repr

/-! ## Wrappers of this package that live outside the three files -/

/-- Modelled from the spec: `SourceLocation.GetFileLocation` (sourcelocation.go
is not among the sources); the spec gives it as
`getFileLocation(Location) -> (file, line, column, offset)`, a direct call of
the engine primitive. -/
def SourceLocation.GetFileLocation (E : Engine) (l : SourceLocation) :
    File × Nat × Nat × Nat :=
  let o := E.getFileLocation l.c
  (File.mk o.1, o.2.1, o.2.2.1, o.2.2.2)

/-- Modelled from the spec: `File.Name` (file.go is not among the sources);
the name the engine reports for the file handle. -/
def File.Name (E : Engine) (f : File) : String :=
  E.getFileName f.c

/-- Modelled from the spec: `Cursor.Extent` (cursor.go is not among the
sources); the spec lists "get a node's extent" as an engine primitive. -/
def Cursor.Extent (E : Engine) (c : Cursor) : SourceRange :=
  SourceRange.mk (E.getCursorExtent c.c)

/-- Modelled from the spec: `Cursor.TranslationUnit` (cursor.go is not among
the sources); the spec lists "get a node's owning translation unit" as an
engine primitive. -/
def Cursor.TranslationUnit (E : Engine) (c : Cursor) : TranslationUnit :=
  TranslationUnit.mk (E.Cursor_getTranslationUnit c.c)

/-! ## sourcerange.go -/

/-- Go `NewNullRange`. -/
def NewNullRange (E : Engine) : SourceRange :=
  SourceRange.mk E.getNullRange

/-- Go `NewRange`. -/
def NewRange (E : Engine) (beg fin : SourceLocation) : SourceRange :=
  let o := E.getRange beg.c fin.c
  SourceRange.mk o

/-- Go `SourceRange.IsEqual`. -/
def SourceRange.IsEqual (E : Engine) (r1 r2 : SourceRange) : Bool :=
  let o := E.equalRanges r1.c r2.c
  if o ≠ 0 then true else false

/-- Go `SourceRange.IsNull`. -/
def SourceRange.IsNull (E : Engine) (r : SourceRange) : Bool :=
  let o := E.Range_isNull r.c
  if o ≠ 0 then true else false

/-- Go `SourceRange.Start`. -/
def SourceRange.Start (E : Engine) (s : SourceRange) : SourceLocation :=
  let o := E.getRangeStart s.c
  SourceLocation.mk o

/-- Go `SourceRange.End`. -/
def SourceRange.End (E : Engine) (s : SourceRange) : SourceLocation :=
  let o := E.getRangeEnd s.c
  SourceLocation.mk o

/-- Go `SourceRange.intersect`.  The pair `(start, sl)` and the pair
`(end, el)` are assigned together in the branches of the two inner `if`s. -/
def SourceRange.intersect (E : Engine) (s i : SourceRange) : SourceRange :=
  let locS := (s.Start E).GetFileLocation E
  let locI := (i.Start E).GetFileLocation E
  if locS.1.Name E = locI.1.Name E then
    let start := locS.2.2.2
    let startSl : Nat × SourceLocation :=
      if start < locI.2.2.2 then (locI.2.2.2, i.Start E) else (start, s.Start E)
    let locS := (s.End E).GetFileLocation E
    let locI := (i.End E).GetFileLocation E
    if locS.1.Name E = locI.1.Name E then
      let fin := locS.2.2.2
      let finEl : Nat × SourceLocation :=
        if fin > locI.2.2.2 then (locI.2.2.2, i.End E) else (fin, s.End E)
      if startSl.1 < finEl.1 then
        NewRange E startSl.2 finEl.2
      else
        NewNullRange E
    else
      NewNullRange E
  else
    NewNullRange E

/-- Go `SourceRange.IsInside`. -/
def SourceRange.IsInside (E : Engine) (s e : SourceRange) : Bool :=
  (s.intersect E e).IsEqual E s

/-! ## Go slices -/

/-- Go index expression `s[idx]`: a run-time panic outside `0 .. len(s)-1`. -/
def goIndex {α : Type} (s : List α) (idx : Int) : Except Panic α :=
  if idx < 0 then .error .indexOutOfRange
  else
    match s.get? idx.toNat with
    | some x => .ok x
    | none => .error .indexOutOfRange

/-- Go assignment `s[idx] = v`: a run-time panic outside `0 .. len(s)-1`. -/
def goSet {α : Type} (s : List α) (idx : Int) (v : α) : Except Panic (List α) :=
  if idx < 0 then .error .indexOutOfRange
  else if idx.toNat < s.length then .ok (s.set idx.toNat v)
  else .error .indexOutOfRange

/-- Go conversion `C.uint(n)` of a non-negative `int`. -/
def toCuint (n : Nat) : Nat := n % 2 ^ 32

/-! ## token.go -/

/-- Go `Token.Extent`. -/
def Token.Extent (E : Engine) (t : Token) : SourceRange :=
  let o := E.getTokenExtent t.tu t.c
  SourceRange.mk o

/-- Go `Tokenize`.  The slice expression `(*[1 << 26]C.CXToken)(c)[:n]` reads
the first `n` tokens at `c` and panics when `n` exceeds the array length. -/
def Tokenize (E : Engine) (tu : TranslationUnit) (src : SourceRange) : Except Panic Tokens :=
  let out := E.tokenize tu.c src.c
  match out.c with
  | some mem =>
    if out.n ≤ 2 ^ 26 then .ok ⟨tu.c, (List.range out.n).map mem⟩
    else .error .sliceBoundsOutOfRange
  | none => .ok ⟨tu.c, []⟩

/-- Go `Tokens.Count`. -/
def Tokens.Count (t : Tokens) : Int :=
  (t.c.length : Int)

/-- Go `Tokens.token`; `none` is the nil pointer. -/
def Tokens.token (t : Tokens) (idx : Int) : Except Panic (Option Token) :=
  if idx ≥ (t.c.length : Int) then .ok none
  else
    match goIndex t.c idx with
    | .error p => .error p
    | .ok c => .ok (some ⟨c, t.tu⟩)

/-- Go `Tokens.Dispose`: the argument `&t.c[0]` is evaluated before the
engine is called.  The result is the list of engine calls made. -/
def Tokens.Dispose (t : Tokens) : Except Panic (List EngineCall) :=
  match goIndex t.c 0 with
  | .error p => .error p
  | .ok _ => .ok [EngineCall.disposeTokens t.tu t.c (toCuint t.c.length)]

/-- The loop `for i, _ := range cursors { cursors[i] = Cursor{c_cursors[i]} }`
of `Tokens.Annotate`, over the indices still to visit. -/
def Tokens.Annotate.loop (c_cursors : List CXCursor) :
    List Nat → List Cursor → Except Panic (List Cursor)
  | [], cursors => .ok cursors
  | i :: rest, cursors =>
    match goIndex c_cursors (i : Int) with
    | .error p => .error p
    | .ok c =>
      match goSet cursors (i : Int) (Cursor.mk c) with
      | .error p => .error p
      | .ok cursors1 => Tokens.Annotate.loop c_cursors rest cursors1

/-- Go `Tokens.Annotate`.  The engine fills the buffer `c_cursors`; its
content after the call is `E.annotateTokens tu tokens n k` at index `k`.  The
result pairs the returned slice with the engine calls made. -/
def Tokens.Annotate (E : Engine) (t : Tokens) : Except Panic (List Cursor × List EngineCall) :=
  let n := t.c.length
  let cursors := List.replicate n (Cursor.mk CXCursor.zero)
  if n ≤ 0 then .ok (cursors, [])
  else
    let c_cursors := List.replicate n CXCursor.zero
    match goIndex t.c 0 with
    | .error p => .error p
    | .ok _ =>
      match goIndex c_cursors 0 with
      | .error p => .error p
      | .ok _ =>
        let written := (List.range n).map (E.annotateTokens t.tu t.c (toCuint n))
        match Tokens.Annotate.loop written (List.range n) cursors with
        | .error p => .error p
        | .ok cursors1 => .ok (cursors1, [EngineCall.annotateTokens t.tu t.c (toCuint n)])

/-- The loop `for i := 0; i < tokens.Count(); i++` of `Cursor.Tokens`, with
`fuel` bounding the number of iterations. -/
def Cursor.Tokens.loop (E : Engine) (tokens : Tokens) (e : SourceRange) :
    Nat → Int → List Token → Except Panic (List Token)
  | 0, _, _ => .error .outOfFuel
  | fuel + 1, i, ts =>
    if i < tokens.Count then
      match tokens.token i with
      | .error p => .error p
      | .ok none => .error .nilDereference
      | .ok (some t) =>
        if (t.Extent E).IsInside E e then
          Cursor.Tokens.loop E tokens e fuel (i + 1) (ts ++ [t])
        else
          Cursor.Tokens.loop E tokens e fuel (i + 1) ts
    else .ok ts

/-- Go `Cursor.Tokens`.  The result pairs the returned slice with the engine
calls `Dispose` made. -/
def Cursor.Tokens (E : Engine) (c : Cursor) : Except Panic (List Token × List EngineCall) :=
  let e := c.Extent E
  match Tokenize E (c.TranslationUnit E) e with
  | .error p => .error p
  | .ok tokens =>
    if tokens.c.length = 0 then .ok ([], [])
    else
      match Cursor.Tokens.loop E tokens e (tokens.c.length + 1) 0 [] with
      | .error p => .error p
      | .ok ts =>
        match tokens.Dispose with
        | .error p => .error p
        | .ok calls => .ok (ts, calls)

/-- The tokens of a stream as `Token` values: the raw token at each position
with the stream's translation unit. -/
def Tokens.toList (t : Tokens) : List Token :=
  t.c.map (fun c => Token.mk c t.tu)

/-! ## find.go -/

/-- Go `type FindContext struct { context interface{}; visitor FindVisitor }`
over context values of type `α`; `none` is the nil function value. -/
structure FindContext (α : Type) where
  context : α
  visitor : Option (α → Cursor → SourceRange → Bool)

/-- The C function a `visit` field points to. -/
inductive VisitFn where
  | null
  | goClangFindVisitor
  deriving DecidableEq, Repr

/-- The struct `CXCursorAndRangeVisitor`: the context pointer (an address) and
the function pointer. -/
structure CXCursorAndRangeVisitor where
  context : Nat
  visit : VisitFn
  deriving DecidableEq, Repr

/-- The Go heap of `FindContext` records: the record at address `k + 1` is
the `k`-th cell; address `0` is nil. -/
abbrev Heap (α : Type) := List (FindContext α)

/-- Go `findVisitorToCursorAndRangeVisitor`: `new(FindContext)` takes the next
free address and the two assignments fill the record. -/
def findVisitorToCursorAndRangeVisitor {α : Type} (heap : Heap α) (context : α)
    (visitor : Option (α → Cursor → SourceRange → Bool)) :
    CXCursorAndRangeVisitor × Heap α :=
  let c : FindContext α := ⟨context, visitor⟩
  (⟨heap.length + 1, VisitFn.goClangFindVisitor⟩, heap ++ [c])

/-- Go `goClangFindVisitor`.  The result pairs the returned `C.int` with the
list of visitor invocations made, each given by its three arguments. -/
def goClangFindVisitor {α : Type} (E : Engine) (heap : Heap α) (p : Nat)
    (cursor : CXCursor) (source : CXSourceRange) :
    Except Panic (Int × List (α × Cursor × SourceRange)) :=
  if p = 0 then .error .nilDereference
  else
    match heap.get? (p - 1) with
    | none => .error .nilDereference
    | some fc =>
      match fc.visitor with
      | none => .error .nilDereference
      | some f =>
        let call := (fc.context, Cursor.mk cursor, SourceRange.mk source)
        if f fc.context (Cursor.mk cursor) (SourceRange.mk source) then
          .ok (E.CXVisit_Continue, [call])
        else
          .ok (E.CXVisit_Break, [call])

/-! ## Vocabulary of the range claims -/

/-- The file a location lies in, as the engine resolves it. -/
def SourceLocation.file (E : Engine) (l : SourceLocation) : File :=
  (l.GetFileLocation E).1

/-- The byte offset of a location, as the engine resolves it. -/
def SourceLocation.offset (E : Engine) (l : SourceLocation) : Nat :=
  (l.GetFileLocation E).2.2.2

/-- All four endpoints of `a` and `b` lie in one file. -/
def SameFile (E : Engine) (a b : SourceRange) : Prop :=
  (a.End E).file E = (a.Start E).file E ∧
  (b.Start E).file E = (a.Start E).file E ∧
  (b.End E).file E = (a.Start E).file E

instance (E : Engine) (a b : SourceRange) : Decidable (SameFile E a b) := by
  unfold SameFile; infer_instance

/-- The start location `intersect` picks: the second operand's when the first
starts strictly earlier, the first operand's otherwise. -/
def chosenStart (E : Engine) (a b : SourceRange) : SourceLocation :=
  if (a.Start E).offset E < (b.Start E).offset E then b.Start E else a.Start E

/-- The end location `intersect` picks: the second operand's when the first
ends strictly later, the first operand's otherwise. -/
def chosenEnd (E : Engine) (a b : SourceRange) : SourceLocation :=
  if (a.End E).offset E > (b.End E).offset E then b.End E else a.End E

/-- The name of the file a location lies in: what `intersect` compares. -/
def SourceLocation.fileName (E : Engine) (l : SourceLocation) : String :=
  (l.file E).Name E

/-- The engine builds a proper range from `sl` and `el`: the range is not
null and its endpoints resolve to the offsets of `sl` and `el`. -/
def BuildsRange (E : Engine) (sl el : SourceLocation) : Prop :=
  (NewRange E sl el).IsNull E = false ∧
  ((NewRange E sl el).Start E).offset E = sl.offset E ∧
  ((NewRange E sl el).End E).offset E = el.offset E

instance (E : Engine) (sl el : SourceLocation) : Decidable (BuildsRange E sl el) := by
  unfold BuildsRange; infer_instance

/-! ## A reference engine

It follows the documented behaviour of libclang on ranges: the null range is
all zeros, `clang_getRange` keeps the two `int_data` when both locations have
the same `ptr_data` and yields the null range otherwise, and two ranges are
equal when their four fields are.  A translation unit `p` holds one file whose
handle is `p`, and `int_data` is the byte offset in it; the units `1` and `3`
both parsed `a.c`. -/

/-- The name of each file handle of the reference engine. -/
def refFileName (f : CXFile) : String :=
  if f = 0 then "" else if f = 2 then "b.c" else "a.c"

/-- The reference engine. -/
def refEngine : Engine where
  getNullRange := ⟨0, 0, 0, 0⟩
  getRange b e :=
    if b.ptr_data0 = e.ptr_data0 ∧ b.ptr_data1 = e.ptr_data1 then
      ⟨b.ptr_data0, b.ptr_data1, b.int_data, e.int_data⟩
    else ⟨0, 0, 0, 0⟩
  equalRanges r1 r2 := if r1 = r2 then 1 else 0
  Range_isNull r := if r = ⟨0, 0, 0, 0⟩ then 1 else 0
  getRangeStart r := ⟨r.ptr_data0, r.ptr_data1, r.begin_int_data⟩
  getRangeEnd r := ⟨r.ptr_data0, r.ptr_data1, r.end_int_data⟩
  getFileLocation l :=
    if l.ptr_data0 = 0 then (0, 0, 0, 0) else (l.ptr_data0, 1, l.int_data + 1, l.int_data)
  getFileName := refFileName
  tokenize tu r :=
    if r.begin_int_data < r.end_int_data then
      ⟨some (fun k => ⟨0, r.begin_int_data + k, 1, 0, tu⟩), r.end_int_data - r.begin_int_data⟩
    else ⟨none, 0⟩
  getTokenExtent tu t := ⟨tu, 0, t.int_data1, t.int_data1 + t.int_data2⟩
  annotateTokens _ toks _ k := ⟨1, 0, (toks.getD k ⟨0, 0, 0, 0, 0⟩).int_data1, 0, 0⟩
  getCursorExtent c := ⟨c.data0, 0, c.data1, c.data2⟩
  Cursor_getTranslationUnit c := c.data0
  CXVisit_Break := 0
  CXVisit_Continue := 1

/-- The range of the reference engine over offsets `lo .. hi` of unit `p`. -/
def refRange (p lo hi : Nat) : SourceRange :=
  SourceRange.mk ⟨p, 0, lo, hi⟩

/-! ## Range arithmetic: lemmas -/

theorem chosenStart_offset (E : Engine) (a b : SourceRange) :
    (chosenStart E a b).offset E = max ((a.Start E).offset E) ((b.Start E).offset E) := by
  unfold chosenStart
  split_ifs with h
  · exact (max_eq_right (le_of_lt h)).symm
  · exact (max_eq_left (not_lt.mp h)).symm

theorem chosenEnd_offset (E : Engine) (a b : SourceRange) :
    (chosenEnd E a b).offset E = min ((a.End E).offset E) ((b.End E).offset E) := by
  unfold chosenEnd
  split_ifs with h
  · exact (min_eq_right (le_of_lt h)).symm
  · exact (min_eq_left (not_lt.mp h)).symm

/-- When the start names agree and the end names agree, `intersect` is decided
by the offsets alone. -/
theorem intersect_of_names (E : Engine) (a b : SourceRange)
    (hs : (a.Start E).fileName E = (b.Start E).fileName E)
    (he : (a.End E).fileName E = (b.End E).fileName E) :
    a.intersect E b =
      if (chosenStart E a b).offset E < (chosenEnd E a b).offset E then
        NewRange E (chosenStart E a b) (chosenEnd E a b)
      else NewNullRange E := by
  simp only [SourceLocation.fileName, SourceLocation.file] at hs he
  simp only [SourceRange.intersect, chosenStart, chosenEnd, SourceLocation.offset, hs, he,
    if_true, gt_iff_lt]
  split_ifs <;> rfl

/-- A mismatch of the start names or of the end names makes `intersect` return
`NewNullRange()`. -/
theorem intersect_of_name_mismatch (E : Engine) (a b : SourceRange)
    (h : (a.Start E).fileName E ≠ (b.Start E).fileName E ∨
      (a.End E).fileName E ≠ (b.End E).fileName E) :
    a.intersect E b = NewNullRange E := by
  simp only [SourceLocation.fileName, SourceLocation.file] at h
  simp only [SourceRange.intersect]
  split_ifs <;> first | rfl | (exfalso; rcases h with h | h <;> exact h (by assumption))

/-- Offsets that leave no room between the later start and the earlier end
make `intersect` return `NewNullRange()`, whatever the files are. -/
theorem intersect_of_no_overlap (E : Engine) (a b : SourceRange)
    (h : ¬ max ((a.Start E).offset E) ((b.Start E).offset E) <
      min ((a.End E).offset E) ((b.End E).offset E)) :
    a.intersect E b = NewNullRange E := by
  by_cases hs : (a.Start E).fileName E = (b.Start E).fileName E
  · by_cases he : (a.End E).fileName E = (b.End E).fileName E
    · rw [intersect_of_names E a b hs he, chosenStart_offset, chosenEnd_offset, if_neg h]
    · exact intersect_of_name_mismatch E a b (Or.inr he)
  · exact intersect_of_name_mismatch E a b (Or.inl hs)

/-! ## Range arithmetic: containment (C1) -/

/-- C1, as stated, fails: in the reference engine the empty range over
offsets 5 .. 5 of `a.c` has all its endpoints in the file of the range over
0 .. 10 and lies fully inside it by the offsets, yet `IsInside` returns
false. -/
theorem IsInside_empty_range_false :
    SameFile refEngine (refRange 1 5 5) (refRange 1 0 10) ∧
    ((refRange 1 0 10).Start refEngine).offset refEngine ≤
      ((refRange 1 5 5).Start refEngine).offset refEngine ∧
    ((refRange 1 5 5).End refEngine).offset refEngine ≤
      ((refRange 1 0 10).End refEngine).offset refEngine ∧
    (refRange 1 5 5).IsInside refEngine (refRange 1 0 10) = false := by
  decide

/-- C1, amended: for ranges `a` and `b` whose endpoints all lie in the same
file, with `a` fully inside `b` by the offsets, `a` non-empty (its start
offset strictly below its end offset) and the engine rebuilding `a` from its
own endpoints (`NewRange(a.Start(), a.End()).IsEqual(a)`), `a.IsInside(b)`
returns true. -/
theorem IsInside_of_inside (E : Engine) (a b : SourceRange)
    (hfile : SameFile E a b)
    (hstart : (b.Start E).offset E ≤ (a.Start E).offset E)
    (hend : (a.End E).offset E ≤ (b.End E).offset E)
    (hne : (a.Start E).offset E < (a.End E).offset E)
    (hrebuild : (NewRange E (a.Start E) (a.End E)).IsEqual E a = true) :
    a.IsInside E b = true := by
  obtain ⟨hae, hbs, hbe⟩ := hfile
  have hs : (a.Start E).fileName E = (b.Start E).fileName E := by
    simp only [SourceLocation.fileName, hbs]
  have he : (a.End E).fileName E = (b.End E).fileName E := by
    simp only [SourceLocation.fileName, hae, hbe]
  have hcs : chosenStart E a b = a.Start E := by
    unfold chosenStart; exact if_neg (not_lt.mpr hstart)
  have hce : chosenEnd E a b = a.End E := by
    unfold chosenEnd; exact if_neg (not_lt.mpr hend)
  unfold SourceRange.IsInside
  rw [intersect_of_names E a b hs he, hcs, hce, if_pos hne]
  exact hrebuild

/-- The amended C1 at the range 2 .. 5 inside the range 0 .. 10 of `a.c`. -/
theorem IsInside_of_inside_witness :
    (refRange 1 2 5).IsInside refEngine (refRange 1 0 10) = true :=
  IsInside_of_inside refEngine (refRange 1 2 5) (refRange 1 0 10)
    (by decide) (by decide) (by decide) (by decide) (by decide)

/-! ## Range arithmetic: the file guards (C2) -/

/-- C2, as stated, fails: in the reference engine the file handles `1` and `3`
are distinct files that both carry the name `a.c`; the starts of the two ranges
lie in different files, and so do their ends, yet `intersect` returns the
first range, which is not null. -/
theorem intersect_distinct_files_same_name :
    ((refRange 1 2 5).Start refEngine).file refEngine ≠
      ((refRange 3 0 10).Start refEngine).file refEngine ∧
    ((refRange 1 2 5).End refEngine).file refEngine ≠
      ((refRange 3 0 10).End refEngine).file refEngine ∧
    (refRange 1 2 5).intersect refEngine (refRange 3 0 10) = refRange 1 2 5 ∧
    (refRange 1 2 5).intersect refEngine (refRange 3 0 10) ≠ NewNullRange refEngine ∧
    ((refRange 1 2 5).intersect refEngine (refRange 3 0 10)).IsNull refEngine = false := by
  decide

/-- C2, amended: if the file names of `a.Start()` and `b.Start()` differ, or
the file names of `a.End()` and `b.End()` differ, then `intersect(a, b)` is
`NewNullRange()`, whatever the offsets are; so an intersection other than
`NewNullRange()` has both endpoint pairs agreeing on the file name. -/
theorem intersect_null_of_name_mismatch (E : Engine) (a b : SourceRange) :
    (((a.Start E).fileName E ≠ (b.Start E).fileName E ∨
        (a.End E).fileName E ≠ (b.End E).fileName E) →
      a.intersect E b = NewNullRange E) ∧
    (a.intersect E b ≠ NewNullRange E →
      (a.Start E).fileName E = (b.Start E).fileName E ∧
      (a.End E).fileName E = (b.End E).fileName E) := by
  refine ⟨intersect_of_name_mismatch E a b, fun hne => ?_⟩
  by_contra hcon
  apply hne
  apply intersect_of_name_mismatch
  by_cases hs : (a.Start E).fileName E = (b.Start E).fileName E
  · right
    intro he
    exact hcon ⟨hs, he⟩
  · left
    exact hs

/-- The amended C2 at a range of `a.c` and a range of `b.c`. -/
theorem intersect_null_of_name_mismatch_witness :
    (((refRange 1 2 5).Start refEngine).fileName refEngine ≠
        ((refRange 2 0 10).Start refEngine).fileName refEngine ∨
      ((refRange 1 2 5).End refEngine).fileName refEngine ≠
        ((refRange 2 0 10).End refEngine).fileName refEngine) ∧
    (refRange 1 2 5).intersect refEngine (refRange 2 0 10) = NewNullRange refEngine :=
  ⟨by decide,
    (intersect_null_of_name_mismatch refEngine (refRange 1 2 5) (refRange 2 0 10)).1
      (by decide)⟩

/-! ## Range arithmetic: disjoint ranges (C3) -/

/-- C3, as stated, fails: the null range and itself have all endpoints in the
NULL file at offset 0, so they are disjoint as half-open intervals, their
intersection is the null range, and `IsInside` returns true. -/
theorem IsInside_null_null_true :
    SameFile refEngine (NewNullRange refEngine) (NewNullRange refEngine) ∧
    ((NewNullRange refEngine).End refEngine).offset refEngine ≤
      ((NewNullRange refEngine).Start refEngine).offset refEngine ∧
    (NewNullRange refEngine).intersect refEngine (NewNullRange refEngine) =
      NewNullRange refEngine ∧
    (NewNullRange refEngine).IsInside refEngine (NewNullRange refEngine) = true := by
  decide

/-- C3, amended: for ranges `a` and `b` in the same file that are disjoint as
half-open intervals, `intersect(a, b)` is `NewNullRange()` and `a.IsInside(b)`
is `NewNullRange().IsEqual(a)`: false whenever `a` is not equal to the null
range. -/
theorem intersect_disjoint (E : Engine) (a b : SourceRange)
    (_hfile : SameFile E a b)
    (hdisj : (a.End E).offset E ≤ (b.Start E).offset E ∨
      (b.End E).offset E ≤ (a.Start E).offset E) :
    a.intersect E b = NewNullRange E ∧
    a.IsInside E b = (NewNullRange E).IsEqual E a ∧
    ((NewNullRange E).IsEqual E a = false → a.IsInside E b = false) := by
  have h : a.intersect E b = NewNullRange E := by
    apply intersect_of_no_overlap
    rw [lt_min_iff, max_lt_iff, max_lt_iff]
    omega
  refine ⟨h, ?_, ?_⟩
  · unfold SourceRange.IsInside; rw [h]
  · intro hn; unfold SourceRange.IsInside; rw [h]; exact hn

/-- The amended C3 at the ranges 0 .. 3 and 3 .. 8 of `a.c`. -/
theorem intersect_disjoint_witness :
    (refRange 1 0 3).intersect refEngine (refRange 1 3 8) = NewNullRange refEngine ∧
    (refRange 1 0 3).IsInside refEngine (refRange 1 3 8) = false :=
  have h := intersect_disjoint refEngine (refRange 1 0 3) (refRange 1 3 8)
    (by decide) (by decide)
  ⟨h.1, h.2.2 (by decide)⟩

/-! ## Range arithmetic: the null range (C4) -/

/-- C4: for every range `r`, `intersect(r, NewNullRange())` and
`intersect(NewNullRange(), r)` are `NewNullRange()` and `IsNull` returns true
on them, for an engine that reports its null range as null and resolves the
end of the null range to offset 0. -/
theorem intersect_with_null (E : Engine) (r : SourceRange)
    (hnull : (NewNullRange E).IsNull E = true)
    (hoff : ((NewNullRange E).End E).offset E = 0) :
    (r.intersect E (NewNullRange E) = NewNullRange E ∧
      (r.intersect E (NewNullRange E)).IsNull E = true) ∧
    ((NewNullRange E).intersect E r = NewNullRange E ∧
      ((NewNullRange E).intersect E r).IsNull E = true) := by
  have h1 : r.intersect E (NewNullRange E) = NewNullRange E := by
    apply intersect_of_no_overlap
    rw [hoff]
    simp
  have h2 : (NewNullRange E).intersect E r = NewNullRange E := by
    apply intersect_of_no_overlap
    rw [hoff]
    simp
  exact ⟨⟨h1, by rw [h1]; exact hnull⟩, ⟨h2, by rw [h2]; exact hnull⟩⟩

/-- C4 at the range 2 .. 5 of `a.c`, with both engine facts checked on the
reference engine. -/
theorem intersect_with_null_witness :
    (NewNullRange refEngine).IsNull refEngine = true ∧
    ((NewNullRange refEngine).End refEngine).offset refEngine = 0 ∧
    ((refRange 1 2 5).intersect refEngine (NewNullRange refEngine)).IsNull refEngine = true ∧
    ((NewNullRange refEngine).intersect refEngine (refRange 1 2 5)).IsNull refEngine = true :=
  have h := intersect_with_null refEngine (refRange 1 2 5) (by decide) (by decide)
  ⟨by decide, by decide, h.1.2, h.2.2⟩

/-! ## Range arithmetic: the intersection (C10) -/

/-- C10: for ranges `a` and `b` whose start files agree and whose end files
agree, over an engine that reports its null range as null and builds a proper
range from the chosen locations when the chosen start lies before the chosen
end: `intersect(a, b)` is non-null exactly when the larger start offset is
strictly below the smaller end offset, and then it is `NewRange(sl, el)` with
`sl` the start of `b` if `a` starts strictly earlier and of `a` otherwise, `el`
the end of `b` if `a` ends strictly later and of `a` otherwise, its start offset
the maximum of the start offsets and its end offset the minimum of the end
offsets. -/
theorem intersect_spec (E : Engine) (a b : SourceRange)
    (hs : (a.Start E).file E = (b.Start E).file E)
    (he : (a.End E).file E = (b.End E).file E)
    (hnull : (NewNullRange E).IsNull E = true)
    (hbuild : (chosenStart E a b).offset E < (chosenEnd E a b).offset E →
      BuildsRange E (chosenStart E a b) (chosenEnd E a b)) :
    ((a.intersect E b).IsNull E = false ↔
      max ((a.Start E).offset E) ((b.Start E).offset E) <
        min ((a.End E).offset E) ((b.End E).offset E)) ∧
    (max ((a.Start E).offset E) ((b.Start E).offset E) <
        min ((a.End E).offset E) ((b.End E).offset E) →
      a.intersect E b =
        NewRange E
          (if (a.Start E).offset E < (b.Start E).offset E then b.Start E else a.Start E)
          (if (a.End E).offset E > (b.End E).offset E then b.End E else a.End E) ∧
      ((a.intersect E b).Start E).offset E =
        max ((a.Start E).offset E) ((b.Start E).offset E) ∧
      ((a.intersect E b).End E).offset E =
        min ((a.End E).offset E) ((b.End E).offset E)) := by
  have hsn : (a.Start E).fileName E = (b.Start E).fileName E := by
    simp only [SourceLocation.fileName, hs]
  have hen : (a.End E).fileName E = (b.End E).fileName E := by
    simp only [SourceLocation.fileName, he]
  have hi := intersect_of_names E a b hsn hen
  rw [← chosenStart_offset, ← chosenEnd_offset]
  constructor
  · constructor
    · intro hnn
      by_contra hlt
      rw [hi, if_neg hlt, hnull] at hnn
      exact Bool.noConfusion hnn
    · intro hlt
      rw [hi, if_pos hlt]
      exact (hbuild hlt).1
  · intro hlt
    rw [hi, if_pos hlt]
    exact ⟨rfl, (hbuild hlt).2.1, (hbuild hlt).2.2⟩

/-- C10 at the overlapping ranges 2 .. 7 and 4 .. 9 of `a.c`: the
intersection is the range 4 .. 7. -/
theorem intersect_spec_witness :
    (refRange 1 2 7).intersect refEngine (refRange 1 4 9) = refRange 1 4 7 ∧
    ((refRange 1 2 7).intersect refEngine (refRange 1 4 9)).IsNull refEngine = false :=
  have h := intersect_spec refEngine (refRange 1 2 7) (refRange 1 4 9)
    (by decide) (by decide) (by decide) (by decide)
  ⟨(h.2 (by decide)).1, h.1.2 (by decide)⟩

/-! ## Token streams: lemmas -/

theorem goIndex_of_lt {α : Type} (s : List α) (k : Nat) (h : k < s.length) :
    goIndex s (k : Int) = .ok (s.get ⟨k, h⟩) := by
  have h0 : ¬ ((k : Int) < 0) := by omega
  simp only [goIndex, h0, if_false, Int.toNat_ofNat, List.get?_eq_getElem?,
    List.getElem?_eq_getElem h, List.get_eq_getElem]

theorem goSet_of_lt {α : Type} (s : List α) (k : Nat) (v : α) (h : k < s.length) :
    goSet s (k : Int) v = .ok (s.set k v) := by
  have h0 : ¬ ((k : Int) < 0) := by omega
  simp only [goSet, h0, if_false, Int.toNat_ofNat, h, if_true]

theorem token_of_lt (t : Tokens) (k : Nat) (h : k < t.c.length) :
    t.token (k : Int) = .ok (some ⟨t.c.get ⟨k, h⟩, t.tu⟩) := by
  have h1 : ¬ ((k : Int) ≥ (t.c.length : Int)) := by omega
  simp only [Tokens.token, h1, if_false, goIndex_of_lt t.c k h]

theorem toList_drop (t : Tokens) (k : Nat) (h : k < t.c.length) :
    t.toList.drop k = ⟨t.c.get ⟨k, h⟩, t.tu⟩ :: t.toList.drop (k + 1) := by
  have hl : k < t.toList.length := by simpa [Tokens.toList] using h
  rw [List.drop_eq_getElem_cons hl]
  simp [Tokens.toList]

/-- With fuel for the positions still ahead, the loop of `Cursor.Tokens`
started at position `k` appends the tokens from `k` on that pass the test. -/
theorem Tokens_loop_eq (E : Engine) (tokens : Tokens) (e : SourceRange) :
    ∀ (fuel k : Nat) (ts : List Token), tokens.c.length - k < fuel →
      Cursor.Tokens.loop E tokens e fuel (k : Int) ts =
        .ok (ts ++ (tokens.toList.drop k).filter (fun t => (t.Extent E).IsInside E e)) := by
  intro fuel
  induction fuel with
  | zero => intro k ts h; omega
  | succ fuel ih =>
    intro k ts h
    by_cases hk : k < tokens.c.length
    · have hc : (k : Int) < tokens.Count := by simp only [Tokens.Count]; omega
      have hcast : (k : Int) + 1 = ((k + 1 : Nat) : Int) := by push_cast; rfl
      simp only [Cursor.Tokens.loop, hc, if_true, token_of_lt tokens k hk, hcast]
      rw [toList_drop tokens k hk, List.filter_cons]
      by_cases hin : (Token.Extent E ⟨tokens.c.get ⟨k, hk⟩, tokens.tu⟩).IsInside E e = true
      · simp only [hin, if_true]
        rw [ih (k + 1) _ (by omega)]
        simp
      · simp only [hin, if_false, Bool.false_eq_true]
        rw [ih (k + 1) _ (by omega)]
    · have hc : ¬ ((k : Int) < tokens.Count) := by simp only [Tokens.Count]; omega
      have hd : tokens.toList.drop k = [] := by
        apply List.drop_eq_nil_of_le
        simp only [Tokens.toList, List.length_map]; omega
      simp only [Cursor.Tokens.loop, hc, if_false, hd, List.filter_nil, List.append_nil]

theorem Dispose_of_ne_nil (t : Tokens) (h : t.c.length ≠ 0) :
    t.Dispose = .ok [EngineCall.disposeTokens t.tu t.c (toCuint t.c.length)] := by
  have h0 : 0 < t.c.length := Nat.pos_of_ne_zero h
  have := goIndex_of_lt t.c 0 h0
  simp only [Nat.cast_zero] at this
  simp only [Tokens.Dispose, this]

theorem token_of_ge (t : Tokens) (idx : Int) (h : t.Count ≤ idx) :
    t.token idx = .ok none := by
  have h1 : idx ≥ (t.c.length : Int) := h
  simp only [Tokens.token, h1, if_true]

/-- A NULL token pointer from the engine gives the empty stream. -/
theorem Tokenize_of_null (E : Engine) (tu : TranslationUnit) (src : SourceRange)
    (h : (E.tokenize tu.c src.c).c = none) :
    Tokenize E tu src = .ok ⟨tu.c, []⟩ := by
  simp only [Tokenize, h]

/-- Every stream `Tokenize` returns has at most `1 << 26` tokens. -/
theorem Tokenize_length_le (E : Engine) (tu : TranslationUnit) (src : SourceRange)
    (t : Tokens) (h : Tokenize E tu src = .ok t) : t.c.length ≤ 2 ^ 26 := by
  unfold Tokenize at h
  cases hc : (E.tokenize tu.c src.c).c with
  | none =>
    simp only [hc, Except.ok.injEq] at h
    rw [← h]; exact Nat.zero_le _
  | some mem =>
    simp only [hc] at h
    split_ifs at h with hn
    · simp only [Except.ok.injEq] at h
      rw [← h]
      simpa using hn

/-! ## Token streams: the tokens of a node (C5) -/

/-- C5: `Cursor.Tokens(n)` returns exactly the tokens of
`Tokenize(n.TranslationUnit(), n.Extent())` whose own extent satisfies
`IsInside(n.Extent())`, in stream order; it fails only where `Tokenize`
does. -/
theorem Cursor_Tokens_eq_filter (E : Engine) (n : Cursor) :
    (Cursor.Tokens E n).map Prod.fst =
      (Tokenize E (n.TranslationUnit E) (n.Extent E)).map
        (fun tokens => tokens.toList.filter (fun t => (t.Extent E).IsInside E (n.Extent E))) := by
  cases hT : Tokenize E (n.TranslationUnit E) (n.Extent E) with
  | error p => simp only [Cursor.Tokens, hT, Except.map]
  | ok tokens =>
    by_cases h0 : tokens.c.length = 0
    · have hnil : tokens.toList = [] := by
        simp only [Tokens.toList, List.map_eq_nil_iff]
        exact List.length_eq_zero.mp h0
      simp only [Cursor.Tokens, hT, h0, if_true, Except.map, hnil, List.filter_nil]
    · have hloop := Tokens_loop_eq E tokens (n.Extent E) (tokens.c.length + 1) 0 []
        (by omega)
      simp only [Nat.cast_zero, List.drop_zero, List.nil_append] at hloop
      simp only [Cursor.Tokens, hT, h0, if_false, hloop, Dispose_of_ne_nil tokens h0,
        Except.map]

/-! ## Token streams: bounds-checked access (C6) and disposal (C7) -/

/-- C6 at a failing input: on every stream, `token(-1)` passes the guard
`idx >= len(t.c)` and panics in `t.c[idx]` instead of returning nil. -/
theorem token_negative_index_panics (t : Tokens) :
    t.token (-1) = .error .indexOutOfRange := by
  have h1 : ¬ ((-1 : Int) ≥ (t.c.length : Int)) := by omega
  simp only [Tokens.token, h1, if_false, goIndex]
  rfl

/-- C7 at a failing input: the empty stream has `Count() == 0`, and `Dispose`
panics on it in `&t.c[0]`, before the engine is called. -/
theorem Dispose_empty_panics (tu : CXTranslationUnit) :
    (Tokens.mk tu []).Count = 0 ∧ (Tokens.mk tu []).Dispose = .error .indexOutOfRange :=
  ⟨rfl, rfl⟩

/-! ## Token streams: annotation (C8) -/

/-- The loop of `Tokens.Annotate`, started at index `k` with the first `k`
results in place, fills the remaining `m` positions from the buffer. -/
theorem Annotate_loop_eq (f : Nat → CXCursor) (n : Nat) :
    ∀ (m k : Nat) (cursors : List Cursor), k + m = n →
      cursors = (List.range k).map (fun i => Cursor.mk (f i)) ++
        List.replicate m (Cursor.mk CXCursor.zero) →
      Tokens.Annotate.loop ((List.range n).map f) (List.range' k m) cursors =
        .ok ((List.range n).map (fun i => Cursor.mk (f i))) := by
  intro m
  induction m with
  | zero =>
    intro k cursors hk hc
    have : k = n := by omega
    subst this
    simp only [List.range', Tokens.Annotate.loop, hc, List.replicate, List.append_nil]
  | succ m ih =>
    intro k cursors hk hc
    have hkn : k < ((List.range n).map f).length := by
      simp only [List.length_map, List.length_range]; omega
    have hkc : k < cursors.length := by
      rw [hc]; simp only [List.length_append, List.length_map, List.length_range,
        List.length_replicate]; omega
    have hget : ((List.range n).map f).get ⟨k, hkn⟩ = f k := by
      simp only [List.get_eq_getElem, List.getElem_map, List.getElem_range]
    simp only [List.range'_succ, Tokens.Annotate.loop, goIndex_of_lt _ k hkn,
      goSet_of_lt cursors k _ hkc, hget]
    apply ih (k + 1) _ (by omega)
    rw [hc, List.set_append_right k _ (by simp), List.range_succ, List.map_append]
    simp [List.replicate_succ]

/-- C8: for every token stream `s` whose length fits a `C.uint` (every stream
of `Tokenize` has at most `1 << 26` tokens), `Annotate` returns a slice of
`Count()` cursors; for a non-empty stream the engine's batch routine is called
exactly once, with the whole token array and its length, and element `i` of
the result wraps what the engine wrote at index `i`; for an empty stream the
result is empty and the engine is not called. -/
theorem Annotate_spec (E : Engine) (s : Tokens) (hlen : s.c.length < 2 ^ 32) :
    ∃ cursors calls, s.Annotate E = .ok (cursors, calls) ∧
      (cursors.length : Int) = s.Count ∧
      (s.c ≠ [] →
        calls = [EngineCall.annotateTokens s.tu s.c s.c.length] ∧
        ∀ i, i < s.c.length →
          cursors.get? i = some (Cursor.mk (E.annotateTokens s.tu s.c s.c.length i))) ∧
      (s.c = [] → cursors = [] ∧ calls = []) := by
  have hcu : toCuint s.c.length = s.c.length := Nat.mod_eq_of_lt hlen
  by_cases h0 : s.c.length = 0
  · have hnil : s.c = [] := List.length_eq_zero.mp h0
    refine ⟨[], [], ?_, ?_, ?_, ?_⟩
    · simp only [Tokens.Annotate, h0, Nat.le_refl, if_true, List.replicate]
    · simp only [Tokens.Count, h0, List.length_nil, Nat.cast_zero]
    · intro hne; exact absurd hnil hne
    · intro _; exact ⟨rfl, rfl⟩
  · have hpos : 0 < s.c.length := Nat.pos_of_ne_zero h0
    have hne : s.c ≠ [] := fun h => h0 (by rw [h]; rfl)
    have hle : ¬ s.c.length ≤ 0 := by omega
    have hi1 := goIndex_of_lt s.c 0 hpos
    have hi2 := goIndex_of_lt (List.replicate s.c.length CXCursor.zero) 0
      (by simpa using hpos)
    simp only [Nat.cast_zero] at hi1 hi2
    have hloop := Annotate_loop_eq (E.annotateTokens s.tu s.c s.c.length) s.c.length
      s.c.length 0 (List.replicate s.c.length (Cursor.mk CXCursor.zero)) (by omega) (by simp)
    refine ⟨(List.range s.c.length).map (fun i => Cursor.mk (E.annotateTokens s.tu s.c s.c.length i)),
      [EngineCall.annotateTokens s.tu s.c s.c.length], ?_, ?_, ?_, ?_⟩
    · simp only [Tokens.Annotate, hle, if_false, hi1, hi2, hcu]
      rw [← List.range_eq_range'] at hloop
      simp only [hloop]
    · simp only [List.length_map, List.length_range, Tokens.Count]
    · intro _
      refine ⟨rfl, fun i hi => ?_⟩
      simp [List.getElem?_range hi]
    · intro hnil; exact absurd hnil hne

/-- C8 at a stream of two tokens. -/
theorem Annotate_spec_witness :
    ∃ cursors calls,
      (Tokens.mk 1 [⟨0, 2, 1, 0, 1⟩, ⟨0, 3, 1, 0, 1⟩]).Annotate refEngine = .ok (cursors, calls) ∧
      (cursors.length : Int) = (Tokens.mk 1 [⟨0, 2, 1, 0, 1⟩, ⟨0, 3, 1, 0, 1⟩]).Count ∧
      calls = [EngineCall.annotateTokens 1 [⟨0, 2, 1, 0, 1⟩, ⟨0, 3, 1, 0, 1⟩] 2] :=
  have h := Annotate_spec refEngine (Tokens.mk 1 [⟨0, 2, 1, 0, 1⟩, ⟨0, 3, 1, 0, 1⟩]) (by decide)
  h.elim fun cursors hc => hc.elim fun calls hcalls =>
    ⟨cursors, calls, hcalls.1, hcalls.2.1, (hcalls.2.2.1 (by decide)).1⟩

/-! ## The find-visitor bridge (C9) -/

/-- C9: for every context value `ctx` and visitor function `f`, calling the
trampoline with the context pointer of the record built by
`findVisitorToCursorAndRangeVisitor(ctx, f)`, a raw node `c` and a raw range
`r` invokes `f` exactly once, with `(ctx, Cursor{c}, SourceRange{r})`, and
returns `CXVisit_Continue` when `f` returns true and `CXVisit_Break` when it
returns false. -/
theorem goClangFindVisitor_dispatch {α : Type} (E : Engine) (heap : Heap α) (ctx : α)
    (f : α → Cursor → SourceRange → Bool) (c : CXCursor) (r : CXSourceRange) :
    (findVisitorToCursorAndRangeVisitor heap ctx (some f)).1.visit = VisitFn.goClangFindVisitor ∧
    goClangFindVisitor E (findVisitorToCursorAndRangeVisitor heap ctx (some f)).2
        (findVisitorToCursorAndRangeVisitor heap ctx (some f)).1.context c r =
      .ok (if f ctx (Cursor.mk c) (SourceRange.mk r) then E.CXVisit_Continue
            else E.CXVisit_Break,
          [(ctx, Cursor.mk c, SourceRange.mk r)]) := by
  refine ⟨rfl, ?_⟩
  simp only [findVisitorToCursorAndRangeVisitor, goClangFindVisitor, Nat.add_sub_cancel,
    Nat.succ_ne_zero, if_false, List.get?_eq_getElem?, List.getElem?_concat_length]
  split_ifs <;> rfl

end Clang
